import Mathlib

/-!
Verification of the news retrieval + summarization pipeline of the
EHR-news-summarizer dashboard (`app.py`).

The two functions under study are `fetch_health_news` and `summarize_news`.
Network effects (the news-search HTTP GET and the language-model completion
call) are modelled by oracles passed in as function arguments: the fetcher
receives `net : String → Except String (List Article)` giving, for the
category label of each loop iteration, either the parsed `articles` array of
a successful response or a request-level failure (non-2xx status, timeout,
connection error, malformed body); the summarizer receives
`complete : String → Except String String`.  Each function also returns the
list of network calls it issued, so that "no HTTP request is made" is a
provable statement.
-/

/-- An article record as parsed from the search API response.  Fields are
optional because the JSON objects need not carry them; `category` is stamped
by the fetcher (`article['category'] = category`). -/
structure Article where
  title : Option String := none
  description : Option String := none
  url : Option String := none
  publishedAt : Option String := none
  category : Option String := none
  deriving Repr, DecidableEq

/-- The static category → query-fragment mapping (`CATEGORIES` in `app.py`).
`\x27` is the ASCII apostrophe appearing in the source literals. -/
def CATEGORIES : List (String × String) :=
  [("EHR News", "EHR OR \x27Electronic Health Records\x27 OR \x27EHR systems\x27 OR \x27EHR implementation\x27"),
   ("Healthcare Technology", "healthcare technology OR digital health"),
   ("Medical Research", "medical research OR clinical trials"),
   ("Health Policy", "health policy OR healthcare reform"),
   ("Pharmaceuticals", "pharmaceuticals OR drug development"),
   ("Public Health", "public health OR disease prevention")]

/-- Dictionary lookup `CATEGORIES[cat]`; `none` models `cat not in CATEGORIES`. -/
def lookupCategory (c : String) : Option String :=
  (CATEGORIES.find? (fun p => p.1 == c)).map (fun p => p.2)

/-- Truthiness of `search_term and search_term.strip()`: the search term is
present and not whitespace-only (`s.strip()` is falsy exactly when every
character of `s` is whitespace). -/
def hasSearchTerm : Option String → Bool
  | none => false
  | some s => !(s.data.all (fun c => c.isWhitespace))

/-- `search_query = f"{search_term} AND " if (search_term and search_term.strip()) else ""`. -/
def searchQueryPart (searchTerm : Option String) : String :=
  if hasSearchTerm searchTerm then searchTerm.getD "" ++ " AND " else ""

/-- `f"({CATEGORIES[cat]})"` for a category known to be in the mapping. -/
def parenFragment (c : String) : String :=
  "(" ++ (lookupCategory c).getD "" ++ ")"

/-- `[f"({CATEGORIES[cat]})" for cat in categories if cat in CATEGORIES]`. -/
def queryFragments (cats : List String) : List String :=
  (cats.filter (fun c => (lookupCategory c).isSome)).map parenFragment

/-- The query string built by `fetch_health_news` (lines 37-48 of `app.py`):
search-only requests get the generic domain filter, category requests get the
OR of the known categories' fragments ANDed with the shorter domain filter. -/
def buildQuery (selectedCategories : List String) (searchTerm : Option String) : String :=
  if selectedCategories.isEmpty then
    searchQueryPart searchTerm ++
      "(healthcare OR health OR medical OR EHR OR EMR OR technology OR business)"
  else
    searchQueryPart searchTerm ++ String.intercalate " OR " (queryFragments selectedCategories) ++
      " AND (healthcare OR health OR medical OR EHR OR EMR)"

/-- The labels iterated by the fetch loop: the pseudo-category
`"Search Results"` when no categories are selected, else the selection. -/
def categoriesToFetch (selectedCategories : List String) : List String :=
  if selectedCategories.isEmpty then ["Search Results"] else selectedCategories

/-- One issued `requests.get` call: the fixed endpoint, the `params` dict
(`q`, `apiKey`, `language`, `sortBy`, `pageSize`) and the `timeout=10`
keyword argument.  `forCategory` is bookkeeping recording which loop
iteration issued the call; it is not a wire parameter. -/
structure Request where
  url : String
  q : String
  apiKey : Option String
  language : String
  sortBy : String
  pageSize : Nat
  clientTimeout : Nat
  forCategory : String
  deriving Repr, DecidableEq

/-- The request issued for one loop iteration. -/
def mkRequest (apiKey : Option String) (query : String) (category : String) : Request :=
  { url := "https://newsapi.org/v2/everything", q := query, apiKey := apiKey,
    language := "en", sortBy := "publishedAt", pageSize := 5, clientTimeout := 10,
    forCategory := category }

/-- `article['category'] = category`. -/
def stampCategory (category : String) (a : Article) : Article :=
  { a with category := some category }

/-- The loop guard `if category != "Search Results" and category not in CATEGORIES: continue`. -/
def skipsCategory (category : String) : Bool :=
  category != "Search Results" && (lookupCategory category).isNone

/-- One iteration of the fetch loop: skip unknown labels, otherwise issue the
request; on failure (`except ... continue`) keep the accumulator, on success
append the stamped articles. -/
def fetchStep (net : String → Except String (List Article)) (apiKey : Option String)
    (query : String) (acc : List Request × List Article) (category : String) :
    List Request × List Article :=
  if skipsCategory category then acc
  else
    let req := mkRequest apiKey query category
    match net category with
    | Except.error _ => (acc.1 ++ [req], acc.2)
    | Except.ok arts => (acc.1 ++ [req], acc.2 ++ arts.map (stampCategory category))

/-- `x.get('publishedAt', '')` — the sort key, with missing timestamps read
as the empty string. -/
def publishedKey (a : Article) : String :=
  a.publishedAt.getD ""

/-- `all_articles.sort(key=lambda x: x.get('publishedAt', ''), reverse=True)`:
a stable sort, newest (largest key) first. -/
def sortArticles (l : List Article) : List Article :=
  l.mergeSort (fun a b => decide (publishedKey b ≤ publishedKey a))

/-- `fetch_health_news(selected_categories, search_term)`: returns the list of
issued HTTP requests together with the accumulated, date-sorted article list. -/
def fetch_health_news (net : String → Except String (List Article)) (apiKey : Option String)
    (selectedCategories : List String) (searchTerm : Option String) :
    List Request × List Article :=
  if selectedCategories.isEmpty && !hasSearchTerm searchTerm then ([], [])
  else
    let query := buildQuery selectedCategories searchTerm
    let res := (categoriesToFetch selectedCategories).foldl (fetchStep net apiKey query) ([], [])
    (res.1, sortArticles res.2)

/-- `article.get('category', 'Uncategorized')`. -/
def categoryOf (a : Article) : String :=
  a.category.getD "Uncategorized"

/-- Appending a key to the insertion-ordered key list when it is new
(`if category not in articles_by_category: articles_by_category[category] = []`). -/
def insertKey (ks : List String) (c : String) : List String :=
  if ks.contains c then ks else ks ++ [c]

/-- The keys of `articles_by_category` in insertion (first-seen) order. -/
def groupKeys (l : List Article) : List String :=
  l.foldl (fun ks a => insertKey ks (categoryOf a)) []

/-- `articles_by_category[c]`: the articles with category `c`, in input order. -/
def groupOf (l : List Article) (c : String) : List Article :=
  l.filter (fun a => categoryOf a == c)

/-- The fixed instruction header of the summarization prompt. -/
def promptHeader : String :=
  "Please summarize the following news articles. For each article, provide a concise bullet point that captures the main point. Focus on the key information that would be relevant to healthcare professionals and IT staff. If the article is about a specific company or technology, mention that. Keep each bullet point to 1-2 sentences maximum.\n\n"

/-- `f"Title: {title}\nDescription: {description}\n\n"` with the source defaults. -/
def renderArticle (a : Article) : String :=
  "Title: " ++ a.title.getD "No title" ++ "\nDescription: " ++
    a.description.getD "No description available" ++ "\n\n"

/-- `f"## {category}\n"` followed by the first five of that category's articles
(`category_articles[:5]`). -/
def renderCategorySection (l : List Article) (c : String) : String :=
  "## " ++ c ++ "\n" ++ String.join (((groupOf l c).take 5).map renderArticle)

/-- The full user-role prompt `content` built by `summarize_news`. -/
def buildPromptContent (l : List Article) : String :=
  promptHeader ++ String.join ((groupKeys l).map (renderCategorySection l))

/-- `summary.startswith(('•', '-', '*'))`. -/
def startsWithBullet (s : String) : Bool :=
  s.startsWith "•" || s.startsWith "-" || s.startsWith "*"

/-- The post-processing of the completion text: if it does not already start
with a bullet marker, split into non-empty stripped lines and bullet each. -/
def ensureBullets (summary : String) : String :=
  if startsWithBullet summary then summary
  else
    String.intercalate "\n"
      ((((summary.splitOn "\n").map (fun p => p.trim)).filter (fun p => !(p == ""))).map
        (fun p => "• " ++ p))

/-- `summarize_news(articles)`, with the completion endpoint as an oracle from
the built prompt content to either the completion text or a failure.  Returns
the user-facing string together with the list of completion calls issued. -/
def summarize_news (complete : String → Except String String) (articles : List Article) :
    String × List String :=
  if articles.isEmpty then ("No recent news found.", [])
  else
    let content := buildPromptContent articles
    match complete content with
    | Except.error _ => ("Error generating summary. Please try again later.", [content])
    | Except.ok summary => (ensureBullets summary, [content])

/-- Helper for stating properties of the fetch loop: the requests issued by a
full pass over `cats` (one per non-skipped label). -/
def requestsFor (apiKey : Option String) (query : String) (cats : List String) : List Request :=
  (cats.filter (fun c => !skipsCategory c)).map (mkRequest apiKey query)

/-- Helper for stating properties of the fetch loop: the stamped articles
accumulated by a full pass over `cats` (failing or skipped labels contribute
nothing). -/
def articlesFor (net : String → Except String (List Article)) (cats : List String) :
    List Article :=
  cats.flatMap (fun c =>
    if skipsCategory c then []
    else
      match net c with
      | Except.error _ => []
      | Except.ok arts => arts.map (stampCategory c))

/-- First occurrence of each label, in order of first appearance, relative to
an already-seen set.  `firstSeenOrder` below is the spec-side reading of
"preserving first-seen category order", used to compare with `groupKeys`. -/
def firstSeenAux (seen : List String) : List String → List String
  | [] => []
  | c :: cs =>
    if seen.contains c then firstSeenAux seen cs
    else c :: firstSeenAux (seen ++ [c]) cs

/-- The distinct labels of a list in first-seen order (spec-side definition). -/
def firstSeenOrder (xs : List String) : List String :=
  firstSeenAux [] xs

/-- Unfolding the fetch loop: a full pass over `cats` appends the non-skipped
requests and the per-category accumulated articles. -/
theorem foldl_fetchStep (net : String → Except String (List Article)) (apiKey : Option String)
    (query : String) :
    ∀ (cats : List String) (rs : List Request) (acc : List Article),
      cats.foldl (fetchStep net apiKey query) (rs, acc) =
        (rs ++ requestsFor apiKey query cats, acc ++ articlesFor net cats)
  | [], rs, acc => by simp [requestsFor, articlesFor]
  | c :: cs, rs, acc => by
    cases h : skipsCategory c with
    | true =>
      simp [List.foldl_cons, fetchStep, h, requestsFor, articlesFor, List.filter_cons,
        foldl_fetchStep net apiKey query cs rs acc]
    | false =>
      cases hnet : net c with
      | error e =>
        simp [List.foldl_cons, fetchStep, h, hnet, requestsFor, articlesFor, List.filter_cons,
          foldl_fetchStep net apiKey query cs (rs ++ [mkRequest apiKey query c]) acc]
      | ok arts =>
        simp [List.foldl_cons, fetchStep, h, hnet, requestsFor, articlesFor, List.filter_cons,
          foldl_fetchStep net apiKey query cs (rs ++ [mkRequest apiKey query c])
            (acc ++ arts.map (stampCategory c))]

/-- `fetch_health_news` past the early return: the issued requests and the
sorted accumulation over the iterated labels. -/
theorem fetch_health_news_eq (net : String → Except String (List Article))
    (apiKey : Option String) (cats : List String) (st : Option String)
    (h : (cats.isEmpty && !hasSearchTerm st) = false) :
    fetch_health_news net apiKey cats st =
      (requestsFor apiKey (buildQuery cats st) (categoriesToFetch cats),
       sortArticles (articlesFor net (categoriesToFetch cats))) := by
  simp [fetch_health_news, h, foldl_fetchStep]

/-- A label in the static mapping is never skipped by the fetch loop. -/
theorem skipsCategory_of_known {c : String} (h : (lookupCategory c).isSome) :
    skipsCategory c = false := by
  simp [skipsCategory, Option.isNone_iff_eq_none]
  intro
  simp [Option.isSome_iff_exists] at h
  rcases h with ⟨q, hq⟩
  simp [hq]

/-- The pseudo-category label is never skipped by the fetch loop. -/
theorem skipsCategory_search_results : skipsCategory "Search Results" = false := by
  decide

/-- C1: with an empty category selection and an absent/blank search term,
`fetch_health_news` returns the empty article list and issues no HTTP
request. -/
theorem fetch_no_input (net : String → Except String (List Article)) (apiKey : Option String)
    (searchTerm : Option String) (h : hasSearchTerm searchTerm = false) :
    fetch_health_news net apiKey [] searchTerm = ([], []) := by
  simp [fetch_health_news, h]

/-- Witness for C1 at the whitespace-only search term `"   "` with a network
oracle that would return an article if it were ever consulted. -/
theorem fetch_no_input_witness :
    hasSearchTerm (some "   ") = false ∧
      fetch_health_news (fun _ => Except.ok [{ title := some "T" }]) none [] (some "   ") =
        ([], []) :=
  ⟨by decide, fetch_no_input _ _ _ (by decide)⟩

/-- C4: the Ranker returns a permutation of its input that is non-increasing
in the `publishedKey` string (the `publishedAt` field, read as `""` when
missing). -/
theorem ranker_perm_sorted (l : List Article) :
    (sortArticles l).Perm l ∧
      (sortArticles l).Pairwise (fun a b => publishedKey b ≤ publishedKey a) := by
  constructor
  · exact List.mergeSort_perm l _
  · have h :=
      @List.sorted_mergeSort Article (fun a b => decide (publishedKey b ≤ publishedKey a))
        (fun a b c hab hbc => by
          simp only [decide_eq_true_eq] at *
          exact le_trans hbc hab)
        (fun a b => by
          simp only [Bool.or_eq_true, decide_eq_true_eq]
          exact le_total (publishedKey b) (publishedKey a))
        l
    exact h.imp (fun hab => of_decide_eq_true hab)

/-- C8: the empty article list short-circuits `summarize_news` with a fixed
message and no completion call. -/
theorem summarize_empty (complete : String → Except String String) :
    summarize_news complete [] = ("No recent news found.", []) := rfl

/-- C9: a failing completion call is caught inside `summarize_news`, which
returns the fixed user-facing error string (the one call having been
issued). -/
theorem summarize_failure_caught (complete : String → Except String String)
    (articles : List Article) (e : String) (hne : articles ≠ [])
    (hfail : complete (buildPromptContent articles) = Except.error e) :
    summarize_news complete articles =
      ("Error generating summary. Please try again later.", [buildPromptContent articles]) := by
  simp [summarize_news, hne, hfail]

/-- Witness for C9: one article and an authentication-style failure. -/
theorem summarize_failure_caught_witness :
    ([{ title := some "T", category := some "EHR News" }] : List Article) ≠ [] ∧
      (fun _ : String => (Except.error "AuthenticationError" : Except String String))
          (buildPromptContent [{ title := some "T", category := some "EHR News" }]) =
        Except.error "AuthenticationError" ∧
      summarize_news (fun _ => Except.error "AuthenticationError")
          [{ title := some "T", category := some "EHR News" }] =
        ("Error generating summary. Please try again later.",
         [buildPromptContent [{ title := some "T", category := some "EHR News" }]]) :=
  ⟨by decide, rfl, summarize_failure_caught _ _ "AuthenticationError" (by decide) rfl⟩

/-- When every selected label is in the static mapping, no label is skipped
and the loop issues exactly one request per label. -/
theorem requestsFor_of_known (apiKey : Option String) (query : String) {cats : List String}
    (hk : ∀ c ∈ cats, (lookupCategory c).isSome) :
    requestsFor apiKey query cats = cats.map (mkRequest apiKey query) := by
  have hf : cats.filter (fun c => !skipsCategory c) = cats :=
    List.filter_eq_self.mpr (fun c hc => by simp [skipsCategory_of_known (hk c hc)])
  simp [requestsFor, hf]

/-- When every selected label is in the static mapping, the built query is the
search part, the OR of all fragments, and the domain filter. -/
theorem buildQuery_of_known {cats : List String} (st : Option String) (hne : cats ≠ [])
    (hk : ∀ c ∈ cats, (lookupCategory c).isSome) :
    buildQuery cats st =
      searchQueryPart st ++ String.intercalate " OR " (cats.map parenFragment) ++
        " AND (healthcare OR health OR medical OR EHR OR EMR)" := by
  have hf : cats.filter (fun c => (lookupCategory c).isSome) = cats :=
    List.filter_eq_self.mpr hk
  simp [buildQuery, queryFragments, hf, hne]

/-- A request issued by the loop records a non-skipped label of the iterated
list. -/
theorem mem_requestsFor {apiKey : Option String} {query : String} {cats : List String}
    {r : Request} (hr : r ∈ requestsFor apiKey query cats) :
    r.forCategory ∈ cats ∧ skipsCategory r.forCategory = false := by
  rcases List.mem_map.mp hr with ⟨d, hd, rfl⟩
  have hmem := List.mem_filter.mp hd
  refine ⟨hmem.1, ?_⟩
  have := hmem.2
  simp [mkRequest]
  simpa using this

set_option maxRecDepth 8192 in
/-- C2 counterexample: with the two selected categories `"EHR News"` and
`"Healthcare Technology"`, both issued requests carry the identical combined
query string, which is not the query built for either single category group. -/
theorem fetch_combined_query_counterexample :
    ((fetch_health_news (fun _ => Except.ok []) none
          ["EHR News", "Healthcare Technology"] none).1.map
        (fun r => (r.forCategory, r.q)) =
      [("EHR News", buildQuery ["EHR News", "Healthcare Technology"] none),
       ("Healthcare Technology", buildQuery ["EHR News", "Healthcare Technology"] none)]) ∧
      buildQuery ["EHR News", "Healthcare Technology"] none ≠ buildQuery ["EHR News"] none ∧
      buildQuery ["EHR News", "Healthcare Technology"] none ≠
        buildQuery ["Healthcare Technology"] none := by
  refine ⟨?_, by decide, by decide⟩
  rw [fetch_health_news_eq _ _ _ _ (by decide)]
  decide

/-- C2 amended: one request per known selected category, each carrying the
common combined query and the fixed parameters `language=en`,
`sortBy=publishedAt`, `pageSize=5`, `timeout=10`. -/
theorem fetch_request_params (net : String → Except String (List Article))
    (apiKey : Option String) (cats : List String) (st : Option String)
    (hne : cats ≠ []) (hk : ∀ c ∈ cats, (lookupCategory c).isSome) :
    (fetch_health_news net apiKey cats st).1.length = cats.length ∧
      ∀ r ∈ (fetch_health_news net apiKey cats st).1,
        r.language = "en" ∧ r.sortBy = "publishedAt" ∧ r.pageSize = 5 ∧
          r.clientTimeout = 10 ∧ r.q = buildQuery cats st := by
  have hguard : (cats.isEmpty && !hasSearchTerm st) = false := by
    simp [List.isEmpty_eq_false.mpr hne]
  rw [fetch_health_news_eq net apiKey cats st hguard]
  have hctf : categoriesToFetch cats = cats := by
    simp [categoriesToFetch, hne]
  rw [hctf, requestsFor_of_known apiKey _ hk]
  refine ⟨by simp, ?_⟩
  intro r hr
  rcases List.mem_map.mp hr with ⟨c, _, rfl⟩
  simp [mkRequest]

/-- Witness for C2 (amended) at the single category `"EHR News"`. -/
theorem fetch_request_params_witness :
    (["EHR News"] : List String) ≠ [] ∧
      (∀ c ∈ (["EHR News"] : List String), (lookupCategory c).isSome) ∧
      ((fetch_health_news (fun _ => Except.ok []) none ["EHR News"] none).1.length =
          (["EHR News"] : List String).length ∧
        ∀ r ∈ (fetch_health_news (fun _ => Except.ok []) none ["EHR News"] none).1,
          r.language = "en" ∧ r.sortBy = "publishedAt" ∧ r.pageSize = 5 ∧
            r.clientTimeout = 10 ∧ r.q = buildQuery ["EHR News"] none) :=
  ⟨by decide, by decide, fetch_request_params _ _ _ _ (by decide) (by decide)⟩

/-- C10: with `k ≥ 1` known selected categories, exactly `k` requests go out
and every one carries the same combined string: the search part, the OR of
every selected category fragment, ANDed with the domain filter. -/
theorem fetch_identical_queries (net : String → Except String (List Article))
    (apiKey : Option String) (cats : List String) (st : Option String)
    (hne : cats ≠ []) (hk : ∀ c ∈ cats, (lookupCategory c).isSome) :
    (fetch_health_news net apiKey cats st).1.length = cats.length ∧
      ∀ r ∈ (fetch_health_news net apiKey cats st).1,
        r.q = searchQueryPart st ++ String.intercalate " OR " (cats.map parenFragment) ++
          " AND (healthcare OR health OR medical OR EHR OR EMR)" := by
  have hguard : (cats.isEmpty && !hasSearchTerm st) = false := by
    simp [List.isEmpty_eq_false.mpr hne]
  rw [fetch_health_news_eq net apiKey cats st hguard]
  have hctf : categoriesToFetch cats = cats := by
    simp [categoriesToFetch, hne]
  rw [hctf, requestsFor_of_known apiKey _ hk]
  refine ⟨by simp, ?_⟩
  intro r hr
  rcases List.mem_map.mp hr with ⟨c, _, rfl⟩
  rw [← buildQuery_of_known st hne hk]
  simp [mkRequest]

/-- Witness for C10 at the two categories `"EHR News"` and
`"Healthcare Technology"`. -/
theorem fetch_identical_queries_witness :
    (["EHR News", "Healthcare Technology"] : List String) ≠ [] ∧
      (∀ c ∈ (["EHR News", "Healthcare Technology"] : List String),
        (lookupCategory c).isSome) ∧
      ((fetch_health_news (fun _ => Except.ok []) none
            ["EHR News", "Healthcare Technology"] none).1.length =
          (["EHR News", "Healthcare Technology"] : List String).length ∧
        ∀ r ∈ (fetch_health_news (fun _ => Except.ok []) none
            ["EHR News", "Healthcare Technology"] none).1,
          r.q = searchQueryPart none ++
            String.intercalate " OR "
              ((["EHR News", "Healthcare Technology"] : List String).map parenFragment) ++
            " AND (healthcare OR health OR medical OR EHR OR EMR)") :=
  ⟨by decide, by decide, fetch_identical_queries _ _ _ _ (by decide) (by decide)⟩

/-- Any article in the sorted accumulation of a loop pass comes from a
non-skipped label whose call succeeded, and is stamped with that label. -/
theorem mem_fetch_articles {net : String → Except String (List Article)} {cats : List String}
    {a : Article} (ha : a ∈ sortArticles (articlesFor net cats)) :
    ∃ d ∈ cats, ∃ arts, net d = Except.ok arts ∧ a.category = some d := by
  have ha' : a ∈ articlesFor net cats :=
    ((List.mergeSort_perm (articlesFor net cats) _).mem_iff).mp ha
  rcases List.mem_flatMap.mp ha' with ⟨d, hd, hmem⟩
  refine ⟨d, hd, ?_⟩
  cases hs : skipsCategory d with
  | true => rw [hs] at hmem; simp at hmem
  | false =>
    rw [hs] at hmem
    cases hnet : net d with
    | error e => rw [hnet] at hmem; simp at hmem
    | ok arts =>
      rw [hnet] at hmem
      simp only [if_neg] at hmem
      rcases List.mem_map.mp (by simpa using hmem) with ⟨a0, _, rfl⟩
      exact ⟨arts, rfl, rfl⟩

/-- C5: with no categories and search term `"Epic EHR"`, a single request is
issued, carrying exactly the query of Scenario B under the pseudo-category
`"Search Results"`, and every returned article is stamped with that label. -/
theorem fetch_search_only_epic (net : String → Except String (List Article))
    (apiKey : Option String) :
    (fetch_health_news net apiKey [] (some "Epic EHR")).1 =
        [mkRequest apiKey
          "Epic EHR AND (healthcare OR health OR medical OR EHR OR EMR OR technology OR business)"
          "Search Results"] ∧
      ∀ a ∈ (fetch_health_news net apiKey [] (some "Epic EHR")).2,
        a.category = some "Search Results" := by
  have hq : buildQuery [] (some "Epic EHR") =
      "Epic EHR AND (healthcare OR health OR medical OR EHR OR EMR OR technology OR business)" := by
    decide
  rw [fetch_health_news_eq net apiKey [] (some "Epic EHR") (by decide)]
  constructor
  · simp [categoriesToFetch, requestsFor, skipsCategory_search_results, hq]
  · intro a ha
    rcases mem_fetch_articles (by simpa [categoriesToFetch] using ha) with ⟨d, hd, _, _, hcat⟩
    simp at hd
    rw [hcat, hd]

/-- A network oracle answering every query with one fixed article. -/
def constNet : String → Except String (List Article) :=
  fun _ => Except.ok [{ title := some "A", publishedAt := some "2024-01-01" }]

/-- Witness for C5: the Scenario B call with the constant network oracle. -/
theorem fetch_search_only_epic_witness :
    (fetch_health_news constNet none [] (some "Epic EHR")).1 =
        [mkRequest none
          "Epic EHR AND (healthcare OR health OR medical OR EHR OR EMR OR technology OR business)"
          "Search Results"] ∧
      ∀ a ∈ (fetch_health_news constNet none [] (some "Epic EHR")).2,
        a.category = some "Search Results" :=
  fetch_search_only_epic constNet none

/-- C3: when the call for a member category fails, the loop still issues every
request, the result is exactly the sorted accumulation of the surviving
categories (the failing one contributing nothing), and every returned article
is stamped with a surviving category, never with the failing one. -/
theorem fetch_survives_failure (net : String → Except String (List Article))
    (apiKey : Option String) (cats : List String) (st : Option String)
    (c : String) (e : String) (hc : c ∈ cats) (hfail : net c = Except.error e)
    (hlen : 2 ≤ cats.length) :
    (fetch_health_news net apiKey cats st).1 =
        requestsFor apiKey (buildQuery cats st) cats ∧
      (fetch_health_news net apiKey cats st).2 = sortArticles (articlesFor net cats) ∧
      ∀ a ∈ (fetch_health_news net apiKey cats st).2,
        ∃ d ∈ cats, (∃ arts, net d = Except.ok arts ∧ a.category = some d) ∧ d ≠ c := by
  have hne : cats ≠ [] := by
    intro h
    rw [h] at hlen
    simp at hlen
  have hguard : (cats.isEmpty && !hasSearchTerm st) = false := by
    simp [List.isEmpty_eq_false.mpr hne]
  have hctf : categoriesToFetch cats = cats := by
    simp [categoriesToFetch, hne]
  rw [fetch_health_news_eq net apiKey cats st hguard, hctf]
  refine ⟨rfl, rfl, ?_⟩
  intro a ha
  rcases mem_fetch_articles ha with ⟨d, hd, arts, hnet, hcat⟩
  refine ⟨d, hd, ⟨arts, hnet, hcat⟩, ?_⟩
  intro hdc
  rw [hdc, hfail] at hnet
  cases hnet

/-- A network oracle failing for `"EHR News"` (as by an HTTP 500) and
succeeding for every other label. -/
def failingNet : String → Except String (List Article) :=
  fun c =>
    if c = "EHR News" then Except.error "HTTP 500"
    else Except.ok [{ title := some "T2", publishedAt := some "2024-01-02" }]

/-- Witness for C3: Scenario C with two selected categories, the first one
failing with an HTTP 500. -/
theorem fetch_survives_failure_witness :
    "EHR News" ∈ (["EHR News", "Healthcare Technology"] : List String) ∧
      failingNet "EHR News" = Except.error "HTTP 500" ∧
      2 ≤ (["EHR News", "Healthcare Technology"] : List String).length ∧
      ((fetch_health_news failingNet none ["EHR News", "Healthcare Technology"] none).1 =
          requestsFor none (buildQuery ["EHR News", "Healthcare Technology"] none)
            ["EHR News", "Healthcare Technology"] ∧
        (fetch_health_news failingNet none ["EHR News", "Healthcare Technology"] none).2 =
          sortArticles (articlesFor failingNet ["EHR News", "Healthcare Technology"]) ∧
        ∀ a ∈ (fetch_health_news failingNet none ["EHR News", "Healthcare Technology"] none).2,
          ∃ d ∈ (["EHR News", "Healthcare Technology"] : List String),
            (∃ arts, failingNet d = Except.ok arts ∧ a.category = some d) ∧ d ≠ "EHR News") :=
  ⟨by decide, rfl, by decide,
    fetch_survives_failure failingNet none ["EHR News", "Healthcare Technology"] none
      "EHR News" "HTTP 500" (by decide) rfl (by decide)⟩

/-- C6 counterexample: the label `"Search Results"` is not in the static
mapping, yet selecting it issues an HTTP request for it (the loop guard only
skips labels different from `"Search Results"`). -/
theorem unknown_label_search_results_requested :
    lookupCategory "Search Results" = none ∧
      (fetch_health_news (fun _ => Except.ok []) none ["Search Results"] none).1 =
        [mkRequest none " AND (healthcare OR health OR medical OR EHR OR EMR)"
          "Search Results"] := by
  refine ⟨by decide, ?_⟩
  rw [fetch_health_news_eq _ _ _ _ (by decide)]
  decide

/-- C6 amended: a selected label absent from the static mapping and different
from the literal `"Search Results"` is silently skipped — no request is issued
during its iteration and it contributes no fragment to the query. -/
theorem unknown_labels_skipped (net : String → Except String (List Article))
    (apiKey : Option String) (cats : List String) (st : Option String)
    (c : String) (hc : lookupCategory c = none) (hne : c ≠ "Search Results") :
    (∀ r ∈ (fetch_health_news net apiKey cats st).1, r.forCategory ≠ c) ∧
      queryFragments cats = queryFragments (cats.filter (fun d => d != c)) := by
  have hskip : skipsCategory c = true := by
    simp [skipsCategory, hc, hne]
  constructor
  · intro r hr
    cases hguard : (cats.isEmpty && !hasSearchTerm st) with
    | true =>
      rw [fetch_health_news] at hr
      rw [hguard] at hr
      simp at hr
    | false =>
      rw [fetch_health_news_eq net apiKey cats st hguard] at hr
      have hmem := mem_requestsFor hr
      intro habs
      rw [habs] at hmem
      cases hce : cats.isEmpty with
      | true =>
        rw [categoriesToFetch, if_pos (by simpa using hce)] at hmem
        have : c = "Search Results" := by simpa using hmem.1
        exact hne this
      | false =>
        rw [hskip] at hmem
        cases hmem.2
  · rw [queryFragments, queryFragments, List.filter_filter]
    congr 1
    apply List.filter_congr
    intro d _
    cases hl : (lookupCategory d).isSome with
    | false => simp
    | true =>
      have hdc : (d == c) = false := by
        cases hbe : d == c with
        | false => rfl
        | true =>
          have : d = c := by simpa using hbe
          rw [this, hc] at hl
          cases hl
      simp [hdc]
      intro h
      rw [h, hc] at hl
      cases hl

/-- Witness for C6 (amended): the unknown label `"Bogus Category"` alongside a
known one. -/
theorem unknown_labels_skipped_witness :
    lookupCategory "Bogus Category" = none ∧ "Bogus Category" ≠ "Search Results" ∧
      ((∀ r ∈ (fetch_health_news constNet none ["EHR News", "Bogus Category"] none).1,
          r.forCategory ≠ "Bogus Category") ∧
        queryFragments ["EHR News", "Bogus Category"] =
          queryFragments ((["EHR News", "Bogus Category"] : List String).filter
            (fun d => d != "Bogus Category"))) :=
  ⟨by decide, by decide,
    unknown_labels_skipped constNet none ["EHR News", "Bogus Category"] none
      "Bogus Category" (by decide) (by decide)⟩

/-- The insertion-ordered key fold equals the already-seen keys followed by
the not-yet-seen labels in first-seen order. -/
theorem foldl_insertKey : ∀ (xs ks : List String),
    xs.foldl insertKey ks = ks ++ firstSeenAux ks xs
  | [], ks => by simp [firstSeenAux]
  | c :: cs, ks => by
    cases h : ks.contains c with
    | true =>
      simp only [List.foldl_cons, insertKey, h, if_pos, firstSeenAux]
      exact foldl_insertKey cs ks
    | false =>
      simp only [List.foldl_cons, insertKey, h, if_neg, firstSeenAux, Bool.false_eq_true,
        if_false]
      rw [foldl_insertKey cs (ks ++ [c])]
      simp

/-- The grouping keys of `summarize_news` are the article categories in
first-seen order. -/
theorem groupKeys_eq_firstSeenOrder (l : List Article) :
    groupKeys l = firstSeenOrder (l.map categoryOf) := by
  have h : groupKeys l = (l.map categoryOf).foldl insertKey [] := by
    rw [List.foldl_map]
    rfl
  rw [h, foldl_insertKey, firstSeenOrder]
  simp

/-- Membership in the first-seen key list: present in the input and not
already seen. -/
theorem mem_firstSeenAux : ∀ (xs seen : List String) (x : String),
    x ∈ firstSeenAux seen xs ↔ x ∈ xs ∧ ¬ x ∈ seen
  | [], seen, x => by simp [firstSeenAux]
  | c :: cs, seen, x => by
    cases h : seen.contains c with
    | true =>
      have hcseen : c ∈ seen := by simpa using h
      rw [firstSeenAux, h]
      simp only [if_pos, mem_firstSeenAux cs seen x, List.mem_cons]
      constructor
      · rintro ⟨h1, h2⟩
        exact ⟨Or.inr h1, h2⟩
      · rintro ⟨h1, h2⟩
        rcases h1 with rfl | h1
        · exact absurd hcseen h2
        · exact ⟨h1, h2⟩
    | false =>
      have hcseen : ¬ c ∈ seen := by simpa using h
      rw [firstSeenAux, h]
      simp only [Bool.false_eq_true, if_false, List.mem_cons,
        mem_firstSeenAux cs (seen ++ [c]) x, List.mem_append]
      constructor
      · rintro (rfl | ⟨h1, h2⟩)
        · exact ⟨Or.inl rfl, hcseen⟩
        · refine ⟨Or.inr h1, fun hx => h2 (Or.inl hx)⟩
      · rintro ⟨rfl | h1, h2⟩
        · exact Or.inl rfl
        · by_cases hxc : x = c
          · exact Or.inl hxc
          · exact Or.inr ⟨h1, by simp [h2, hxc]⟩

/-- The first-seen key list has no duplicates. -/
theorem nodup_firstSeenAux : ∀ (xs seen : List String), (firstSeenAux seen xs).Nodup
  | [], seen => by simp [firstSeenAux]
  | c :: cs, seen => by
    cases h : seen.contains c with
    | true =>
      rw [firstSeenAux, h]
      simpa using nodup_firstSeenAux cs seen
    | false =>
      rw [firstSeenAux, h]
      simp only [Bool.false_eq_true, if_false, List.nodup_cons]
      refine ⟨?_, nodup_firstSeenAux cs (seen ++ [c])⟩
      intro hmem
      rcases (mem_firstSeenAux cs (seen ++ [c]) c).mp hmem with ⟨_, habs⟩
      exact habs (by simp)

/-- Filtering away one category then filtering for a different one is the same
as filtering for the different one directly. -/
theorem filter_cat_of_ne {k c : String} (hck : c ≠ k) (l : List Article) :
    (l.filter (fun a => !(categoryOf a == k))).filter (fun a => categoryOf a == c) =
      l.filter (fun a => categoryOf a == c) := by
  rw [List.filter_filter]
  apply List.filter_congr
  intro a _
  cases hca : (categoryOf a == c) with
  | false => simp
  | true =>
    have : categoryOf a = c := by simpa using hca
    simp [this, hck]

/-- Concatenating the per-key filters of a duplicate-free, covering key list
permutes the original list. -/
theorem perm_flatMap_filter : ∀ (keys : List String) (l : List Article),
    keys.Nodup → (∀ a ∈ l, categoryOf a ∈ keys) →
    (keys.flatMap (fun c => l.filter (fun a => categoryOf a == c))).Perm l
  | [], l, _, hcov => by
    have hl : l = [] := by
      cases l with
      | nil => rfl
      | cons a t => exact absurd (hcov a (by simp)) (by simp)
    simp [hl]
  | k :: ks, l, hnd, hcov => by
    rw [List.flatMap_cons]
    have hnd' := List.nodup_cons.mp hnd
    have htail : ks.flatMap (fun c => l.filter (fun a => categoryOf a == c)) =
        ks.flatMap (fun c =>
          (l.filter (fun a => !(categoryOf a == k))).filter (fun a => categoryOf a == c)) := by
      rw [List.flatMap, List.flatMap]
      congr 1
      apply List.map_congr_left
      intro c hc
      have hck : c ≠ k := fun h => hnd'.1 (h ▸ hc)
      rw [filter_cat_of_ne hck]
    rw [htail]
    have hih :=
      perm_flatMap_filter ks (l.filter (fun a => !(categoryOf a == k))) hnd'.2
        (fun a ha => by
          have hmem := List.mem_filter.mp ha
          rcases List.mem_cons.mp (hcov a hmem.1) with hk2 | hks
          · exact absurd hmem.2 (by simp [hk2])
          · exact hks)
    exact (List.Perm.append_left _ hih).trans (List.filter_append_perm _ l)

/-- C7: the union of the per-category groups is a permutation of the input
list, and the grouping keys are the categories in first-seen input order. -/
theorem grouping_lossless (l : List Article) :
    ((groupKeys l).flatMap (fun c => groupOf l c)).Perm l ∧
      groupKeys l = firstSeenOrder (l.map categoryOf) := by
  refine ⟨?_, groupKeys_eq_firstSeenOrder l⟩
  have hkeys := groupKeys_eq_firstSeenOrder l
  simp only [groupOf]
  apply perm_flatMap_filter
  · rw [hkeys, firstSeenOrder]
    exact nodup_firstSeenAux _ _
  · intro a ha
    rw [hkeys, firstSeenOrder]
    exact (mem_firstSeenAux _ _ _).mpr ⟨List.mem_map_of_mem _ ha, by simp⟩

example :
    buildQuery [] (some "Epic EHR") =
      "Epic EHR AND (healthcare OR health OR medical OR EHR OR EMR OR technology OR business)" := by
  decide

example :
    buildQuery ["EHR News"] none =
      "(EHR OR \x27Electronic Health Records\x27 OR \x27EHR systems\x27 OR \x27EHR implementation\x27) AND (healthcare OR health OR medical OR EHR OR EMR)" := by
  decide

example : fetch_health_news (fun _ => Except.ok []) none [] (some "   ") = ([], []) := by
  decide
